import Mathlib

/-!
Verification development for the IntervAI quiz application (`app.py`).

The development shallowly embeds the deterministic parts of the source:
the local scoring function `evaluate_answers`, the JSON-extraction
policies of `is_valid_role` and `generate_mcqs` (with the external
generation call and the JSON parser treated as oracle parameters), and
the page-state flow of the streamlit script as an explicit step function.
-/

/-- A generated multiple-choice question, as produced by the question
generator: question text, the four options, and the stored correct-option
index.  The `answer` field models the JSON value at key `"answer"`; it is
an `Option Int` so that a JSON `null` (Python `None`) is representable,
which is what makes the unanswered-comparison behaviour of the scorer
worth stating. -/
structure Question where
  q : String
  options : List String
  answer : Option Int
deriving DecidableEq

/-- The answer map: Python dict from keys `"q_<i>"` to the selected option
index.  A missing key and a stored `None` both read back as `none`, which
is exactly what `answers.get(f"q_<i>", None)` yields. -/
abbrev AnswerMap := String → Option Int

/-- The dict key used for question position `i` (Python `f"q_<i>"`). -/
def qKey (i : Nat) : String := "q_" ++ toString i

/-- The four counters accumulated by the scoring loop of
`evaluate_answers`. -/
structure Counters where
  tech_correct : Nat
  comm_correct : Nat
  tech_attempted : Nat
  comm_attempted : Nat
deriving DecidableEq

/-- The `for i, q in enumerate(all_qs)` loop of `evaluate_answers`
(app.py lines 156-170): `selected = answers.get(f"q_<i>", None)`;
an answered question increments the attempted counter of its section
(`i < len(domain_qs)` selects technical), and `selected == correct`
increments the correct counter of its section. -/
def scoreLoop (d : Nat) (a : AnswerMap) : Nat → List Question → Counters
  | _, [] => ⟨0, 0, 0, 0⟩
  | i, qu :: rest =>
    let c := scoreLoop d a (i + 1) rest
    let selected := a (qKey i)
    ⟨(if selected = qu.answer ∧ i < d then 1 else 0) + c.tech_correct,
     (if selected = qu.answer ∧ ¬ i < d then 1 else 0) + c.comm_correct,
     (if selected.isSome ∧ i < d then 1 else 0) + c.tech_attempted,
     (if selected.isSome ∧ ¬ i < d then 1 else 0) + c.comm_attempted⟩

/-- The `scores` sub-object of an evaluation result. -/
structure Scores where
  technical : Nat
  communication : Nat
  total : Nat
deriving DecidableEq

/-- The result dict returned by `evaluate_answers`. -/
structure EvaluationResult where
  scores : Scores
  summary : String
  strengths : String
  improvements : String
deriving DecidableEq

/-- The dict returned by `evaluate_answers` when no question was
attempted (app.py lines 177-187). -/
def noAttemptsResult : EvaluationResult :=
  { scores := ⟨0, 0, 0⟩
    summary := "You did not attempt any questions."
    strengths := "No strengths detected because no questions were answered."
    improvements := "Please attempt the questions to receive proper feedback." }

/-- Low-tier strengths text (app.py line 191). -/
def lowStrengths : String := "You attempted the test, which is a good start."

/-- Low-tier improvements text (app.py lines 192-195). -/
def lowImprovements : String :=
  "Try revising fundamentals for this job role. Practice more MCQs to strengthen your basic understanding."

/-- Medium-tier strengths text (app.py lines 199-202). -/
def medStrengths : String :=
  "You have moderate understanding. Some answers show that you know important concepts."

/-- Medium-tier improvements text (app.py lines 203-206). -/
def medImprovements : String :=
  "Focus on weak areas and revisit key concepts. Try to improve accuracy by practicing domain-related questions."

/-- High-tier strengths text (app.py lines 210-213). -/
def highStrengths : String :=
  "Strong understanding of the subject. Your answers show clarity and confidence in multiple areas."

/-- High-tier improvements text (app.py lines 214-216). -/
def highImprovements : String :=
  "Keep refining your skills. Work on small gaps to reach expert level."

/-- The summary f-string of app.py line 218; the `/20` and `/10`
denominators are hardcoded in the source. -/
def mkSummary (total tech comm : Nat) : String :=
  "You scored " ++ toString total ++ "/20 with " ++ toString tech ++
    "/10 in technical skills and " ++ toString comm ++ "/10 in communication skills."

/-- The local scorer `evaluate_answers(role, domain_qs, comm_qs, answers)`
of app.py lines 148-229.  The `role` argument is accepted and unused,
exactly as in the source. -/
def evaluate_answers (role : String) (domain_qs comm_qs : List Question)
    (answers : AnswerMap) : EvaluationResult :=
  let all_qs := domain_qs ++ comm_qs
  let c := scoreLoop domain_qs.length answers 0 all_qs
  let total := c.tech_correct + c.comm_correct
  if c.tech_attempted = 0 ∧ c.comm_attempted = 0 then
    noAttemptsResult
  else if total ≤ 5 then
    { scores := ⟨c.tech_correct, c.comm_correct, total⟩
      summary := mkSummary total c.tech_correct c.comm_correct
      strengths := lowStrengths
      improvements := lowImprovements }
  else if 6 ≤ total ∧ total ≤ 14 then
    { scores := ⟨c.tech_correct, c.comm_correct, total⟩
      summary := mkSummary total c.tech_correct c.comm_correct
      strengths := medStrengths
      improvements := medImprovements }
  else
    { scores := ⟨c.tech_correct, c.comm_correct, total⟩
      summary := mkSummary total c.tech_correct c.comm_correct
      strengths := highStrengths
      improvements := highImprovements }

/-- A JSON value, as returned by the external JSON parser.  Numbers are
modelled as integers (the only numeric values the contracts use). -/
inductive Json where
  | null : Json
  | bool : Bool → Json
  | num : Int → Json
  | str : String → Json
  | arr : List Json → Json
  | obj : List (String × Json) → Json

/-- Python `str.strip()`: drop leading and trailing whitespace.  Defined
by structural recursion on the character list so that it evaluates. -/
def pyStrip (s : String) : String :=
  String.mk
    (((s.data.dropWhile Char.isWhitespace).reverse.dropWhile
        Char.isWhitespace).reverse)

/-- Python `str.find(c)`: index of the first occurrence, `-1` if absent. -/
def pyFind (s : String) (c : Char) : Int :=
  match s.toList.findIdx? (fun x => x == c) with
  | some i => (i : Int)
  | none => -1

/-- Python `str.rfind(c)`: index of the last occurrence, `-1` if absent. -/
def pyRfind (s : String) (c : Char) : Int :=
  match s.toList.reverse.findIdx? (fun x => x == c) with
  | some i => (s.toList.length : Int) - 1 - (i : Int)
  | none => -1

/-- Normalise one bound of a Python slice `s[a:b]`: negative indices count
from the end, then the bound is clamped into `[0, n]`. -/
def pySliceIndex (n : Nat) (i : Int) : Nat :=
  let j := if i < 0 then i + (n : Int) else i
  if j < 0 then 0 else min j.toNat n

/-- Python slicing `s[a:b]` on strings (by code point). -/
def pySlice (s : String) (a b : Int) : String :=
  let cs := s.toList
  let lo := pySliceIndex cs.length a
  let hi := pySliceIndex cs.length b
  String.mk ((cs.drop lo).take (hi - lo))

/-- The brace-slicing used at both parse sites:
the slice from the first opening brace to the last closing brace, `rfind` plus one. -/
def extractBraces (t : String) : String :=
  pySlice t (pyFind t '\x7b') (pyRfind t '\x7d' + 1)

/-- `is_valid_role(text)` of app.py lines 94-118.  The external call is an
oracle `callRes` (`.error` = the call or `.text` access raised), and the
external JSON parser is an oracle `p` (`.error` = `json.loads` raised).
The body mirrors the source: strip the reply, brace-slice it, parse, and
read `obj.get("valid", False)`; every failure path falls into the bare
`except` and yields Python `False`.  The Lean function is total: returning
`Json` rather than an exception encodes that no exception escapes. -/
def is_valid_role (callRes : Except Unit String)
    (p : String → Except Unit Json) : Json :=
  match callRes with
  | .error _ => .bool false
  | .ok raw =>
    let t := pyStrip raw
    match p (extractBraces t) with
    | .error _ => .bool false
    | .ok j =>
      match j with
      | .obj fields =>
        match fields.lookup "valid" with
        | some v => v
        | none => .bool false
      | _ => .bool false

/-- `generate_mcqs(role, n_domain, n_comm)` of app.py lines 122-145, with
the reply text of the external call and the JSON parser as oracles.
`reply.strip()` is parsed directly; on failure the brace-sliced substring
is parsed, and a failure of that second parse propagates (the result stays
`Except`, with no surrounding handler). -/
def generate_mcqs (role : String) (n_domain n_comm : Nat)
    (p : String → Except Unit Json) (reply : String) : Except Unit Json :=
  let text := pyStrip reply
  match p text with
  | .ok j => .ok j
  | .error _ => p (extractBraces text)

/-- Python truthiness of a JSON value, as used by
`if not is_valid_role(...)`. -/
def jsonTruthy : Json → Bool
  | .null => false
  | .bool b => b
  | .num n => n != 0
  | .str s => s != ""
  | .arr xs => !xs.isEmpty
  | .obj fields => !fields.isEmpty

/-- Length of the array stored under `field` of a JSON object, when the
value has that shape. -/
def jsonArrayLen (j : Json) (field : String) : Option Nat :=
  match j with
  | .obj fields =>
    match fields.lookup field with
    | some (.arr xs) => some xs.length
    | _ => none
  | _ => none

/-- The decoded question-set contract: `domain` and `communication`
question arrays. -/
structure QuestionSet where
  domain : List Question
  communication : List Question
deriving DecidableEq

/-- The page states of the streamlit script (`st.session_state.state`). -/
inductive Page where
  | home
  | generating
  | test
  | evaluating
  | result
deriving DecidableEq

/-- The per-session state bundle (app.py lines 233-246): page state, role,
generated question set, answer dict, and evaluation result. -/
structure SessionState where
  state : Page
  role : String
  mcqs : Option QuestionSet
  answers : List (String × Option Int)
  evaluation : Option EvaluationResult

/-- The initial session state (app.py lines 233-246). -/
def initialSession : SessionState :=
  { state := .home, role := "", mcqs := none, answers := [], evaluation := none }

/-- The events driving the page flow.  `submitRole` carries the typed text
together with the oracles describing the role-validation call;
`generated` carries the decoded question set produced by the generating
step; `submitTest` carries the answer dict at submission time. -/
inductive Event where
  | submitRole (text : String) (callRes : Except Unit String)
      (p : String → Except Unit Json)
  | generated (qs : QuestionSet)
  | submitTest (answers : List (String × Option Int))
  | evaluated
  | reset

/-- Read the answer dict as an `AnswerMap`, mirroring
`answers.get(key, None)`. -/
def answersFun (l : List (String × Option Int)) : AnswerMap :=
  fun k => (l.lookup k).getD none

/-- One transition of the page flow.  Each branch mirrors the handler of
the corresponding page in app.py: the home form (lines 256-274, including
the emptiness check and the `is_valid_role` truthiness gate), the
generating step (lines 278-283), the test form submission (lines 287-320),
the evaluation step (lines 324-334, invoking the local scorer), and the
reset button of the result page (lines 358-364). -/
def step (s : SessionState) : Event → SessionState
  | .submitRole text callRes p =>
    if s.state = .home then
      if pyStrip text = "" then s
      else if jsonTruthy (is_valid_role callRes p) = false then s
      else { s with role := pyStrip text, state := .generating }
    else s
  | .generated qs =>
    if s.state = .generating then { s with mcqs := some qs, state := .test }
    else s
  | .submitTest ans =>
    if s.state = .test then { s with answers := ans, state := .evaluating }
    else s
  | .evaluated =>
    if s.state = .evaluating then
      match s.mcqs with
      | some qs =>
        { s with
          evaluation := some (evaluate_answers s.role qs.domain
            qs.communication (answersFun s.answers))
          state := .result }
      | none => s
    else s
  | .reset =>
    if s.state = .result then
      { s with
        state := .home
        role := ""
        answers := []
        mcqs := none
        evaluation := none }
    else s

/-- Run a sequence of events through `step`. -/
def steps (s : SessionState) : List Event → SessionState
  | [] => s
  | e :: rest => steps (step s e) rest

/-- Invariant used for the reset claim: whenever the session sits on the
test page, its question set was delivered by a `generated` event among the
events seen so far. -/
def freshTest (s : SessionState) (seen : List Event) : Prop :=
  s.state = .test → ∃ qs, s.mcqs = some qs ∧ Event.generated qs ∈ seen

/-- A sample generated question used by concrete witnesses. -/
def sampleQuestion : Question :=
  { q := "sample", options := ["A", "B", "C", "D"], answer := some 1 }

/-- A session sitting on the result page, used by concrete witnesses. -/
def sessionAtResult : SessionState :=
  { state := .result, role := "Doctor"
    mcqs := some ⟨[sampleQuestion], [sampleQuestion]⟩
    answers := [("q_0", some 1)]
    evaluation := some noAttemptsResult }

/-- The reply text used by the missing-length-check counterexample: a
syntactically valid JSON object with empty question arrays. -/
def ceReply : String := "\x7b\"domain\": [], \"communication\": []\x7d"

/-- The parsed form of `ceReply`. -/
def ceJson : Json :=
  Json.obj [("domain", Json.arr []), ("communication", Json.arr [])]

/-- A parser oracle consistent with `json.loads` on `ceReply`: it parses
exactly that text, to `ceJson`. -/
def ceParse : String → Except Unit Json :=
  fun s => if s = ceReply then .ok ceJson else .error ()

theorem scoreLoop_append (d : Nat) (a : AnswerMap) (l1 l2 : List Question) :
    ∀ i, scoreLoop d a i (l1 ++ l2) =
      ⟨(scoreLoop d a i l1).tech_correct + (scoreLoop d a (i + l1.length) l2).tech_correct,
       (scoreLoop d a i l1).comm_correct + (scoreLoop d a (i + l1.length) l2).comm_correct,
       (scoreLoop d a i l1).tech_attempted + (scoreLoop d a (i + l1.length) l2).tech_attempted,
       (scoreLoop d a i l1).comm_attempted + (scoreLoop d a (i + l1.length) l2).comm_attempted⟩ := by
  induction l1 with
  | nil => intro i; simp [scoreLoop]
  | cons qu t ih =>
    intro i
    have hidx : i + (t.length + 1) = (i + 1) + t.length := by omega
    simp [List.cons_append, scoreLoop, ih (i + 1), List.length_cons, hidx,
      Counters.mk.injEq]
    refine ⟨by omega, by omega, by omega, by omega⟩

theorem scoreLoop_tech_le (d : Nat) (a : AnswerMap) (l : List Question) :
    ∀ i, (scoreLoop d a i l).tech_correct ≤ l.length := by
  induction l with
  | nil => intro i; simp [scoreLoop]
  | cons qu t ih =>
    intro i
    have h := ih (i + 1)
    simp only [scoreLoop, List.length_cons]
    split <;> omega

theorem scoreLoop_comm_le (d : Nat) (a : AnswerMap) (l : List Question) :
    ∀ i, (scoreLoop d a i l).comm_correct ≤ l.length := by
  induction l with
  | nil => intro i; simp [scoreLoop]
  | cons qu t ih =>
    intro i
    have h := ih (i + 1)
    simp only [scoreLoop, List.length_cons]
    split <;> omega

theorem scoreLoop_tech_zero (d : Nat) (a : AnswerMap) (l : List Question) :
    ∀ i, d ≤ i → (scoreLoop d a i l).tech_correct = 0 := by
  induction l with
  | nil => intro i _; simp [scoreLoop]
  | cons qu t ih =>
    intro i hi
    have h := ih (i + 1) (by omega)
    have hnot : ¬ (a (qKey i) = qu.answer ∧ i < d) := by
      rintro ⟨-, hlt⟩; omega
    simp only [scoreLoop, if_neg hnot]
    omega

theorem scoreLoop_comm_zero (d : Nat) (a : AnswerMap) (l : List Question) :
    ∀ i, i + l.length ≤ d → (scoreLoop d a i l).comm_correct = 0 := by
  induction l with
  | nil => intro i _; simp [scoreLoop]
  | cons qu t ih =>
    intro i hi
    simp only [List.length_cons] at hi
    have h := ih (i + 1) (by omega)
    have hnot : ¬ (a (qKey i) = qu.answer ∧ ¬ i < d) := by
      rintro ⟨-, hlt⟩; omega
    simp only [scoreLoop, if_neg hnot]
    omega

theorem scoreLoop_attempted_zero (d : Nat) (a : AnswerMap) (l : List Question) :
    ∀ i, (∀ j, i ≤ j → j < i + l.length → a (qKey j) = none) →
      (scoreLoop d a i l).tech_attempted = 0 ∧
        (scoreLoop d a i l).comm_attempted = 0 := by
  induction l with
  | nil => intro i _; simp [scoreLoop]
  | cons qu t ih =>
    intro i h
    have hself : a (qKey i) = none :=
      h i (le_refl i) (by simp only [List.length_cons]; omega)
    have hrest := ih (i + 1) (fun j h1 h2 =>
      h j (by omega) (by simp only [List.length_cons] at h2 ⊢; omega))
    simp only [scoreLoop, hself]
    simp [hrest.1, hrest.2]

theorem scoreLoop_attempted_pos (d : Nat) (a : AnswerMap) (l : List Question) :
    ∀ i j, i ≤ j → j < i + l.length → (a (qKey j)).isSome →
      0 < (scoreLoop d a i l).tech_attempted + (scoreLoop d a i l).comm_attempted := by
  induction l with
  | nil => intro i j h1 h2 _; simp only [List.length_nil] at h2; omega
  | cons qu t ih =>
    intro i j h1 h2 hs
    rcases Nat.eq_or_lt_of_le h1 with heq | hlt
    · subst heq
      simp only [scoreLoop]
      by_cases hd : i < d
      · simp [hs, hd]
      · simp [hs, hd]
    · have := ih (i + 1) j hlt (by simp at h2; omega) hs
      simp only [scoreLoop]
      split <;> split <;> omega

theorem scoreLoop_tech_full (d : Nat) (a : AnswerMap) (l : List Question) :
    ∀ i, i + l.length ≤ d →
      (∀ j (hj : j < l.length), ∃ k : Int,
        (l.get ⟨j, hj⟩).answer = some k ∧ a (qKey (i + j)) = some k) →
      (scoreLoop d a i l).tech_correct = l.length := by
  induction l with
  | nil => intro i _ _; simp [scoreLoop]
  | cons qu t ih =>
    intro i hd h
    simp only [List.length_cons] at hd
    obtain ⟨k, hk1, hk2⟩ := h 0 (by simp)
    simp only [List.get] at hk1
    have hsel : a (qKey i) = qu.answer := by
      rw [Nat.add_zero] at hk2; rw [hk1, hk2]
    have hrest := ih (i + 1) (by omega) (fun j hj => by
      obtain ⟨k', hk1', hk2'⟩ := h (j + 1) (by simp; omega)
      refine ⟨k', ?_, ?_⟩
      · simpa using hk1'
      · have : i + (j + 1) = (i + 1) + j := by omega
        rwa [this] at hk2')
    have hcond : a (qKey i) = qu.answer ∧ i < d := ⟨hsel, by omega⟩
    simp only [scoreLoop, if_pos hcond, List.length_cons]
    omega

theorem scoreLoop_comm_full (d : Nat) (a : AnswerMap) (l : List Question) :
    ∀ i, d ≤ i →
      (∀ j (hj : j < l.length), ∃ k : Int,
        (l.get ⟨j, hj⟩).answer = some k ∧ a (qKey (i + j)) = some k) →
      (scoreLoop d a i l).comm_correct = l.length := by
  induction l with
  | nil => intro i _ _; simp [scoreLoop]
  | cons qu t ih =>
    intro i hd h
    obtain ⟨k, hk1, hk2⟩ := h 0 (by simp)
    simp only [List.get] at hk1
    have hsel : a (qKey i) = qu.answer := by
      rw [Nat.add_zero] at hk2; rw [hk1, hk2]
    have hrest := ih (i + 1) (by omega) (fun j hj => by
      obtain ⟨k', hk1', hk2'⟩ := h (j + 1) (by simp; omega)
      refine ⟨k', ?_, ?_⟩
      · simpa using hk1'
      · have : i + (j + 1) = (i + 1) + j := by omega
        rwa [this] at hk2')
    have hcond : a (qKey i) = qu.answer ∧ ¬ i < d := ⟨hsel, by omega⟩
    simp only [scoreLoop, if_pos hcond, List.length_cons]
    omega

theorem scoreLoop_correct_le_attempted (d : Nat) (a : AnswerMap)
    (l : List Question) :
    ∀ i, (∀ qu ∈ l, qu.answer.isSome) →
      (scoreLoop d a i l).tech_correct ≤ (scoreLoop d a i l).tech_attempted ∧
        (scoreLoop d a i l).comm_correct ≤ (scoreLoop d a i l).comm_attempted := by
  induction l with
  | nil => intro i _; simp [scoreLoop]
  | cons qu t ih =>
    intro i h
    have hrest := ih (i + 1) (fun x hx => h x (List.mem_cons_of_mem qu hx))
    have hq : qu.answer.isSome := h qu (List.mem_cons_self qu t)
    simp only [scoreLoop]
    by_cases hsel : a (qKey i) = qu.answer
    · by_cases hd : i < d
      · simp [hsel, hq, hd]; omega
      · simp [hsel, hq, hd]; omega
    · by_cases hd : i < d <;> simp [hsel, hd] <;> split <;> omega

theorem data_append (s t : String) : (s ++ t).data = s.data ++ t.data := by
  cases s; cases t; rfl

theorem mkSummary_ne_noAttempts (x y z : Nat) :
    mkSummary x y z ≠ noAttemptsResult.summary := by
  intro h
  have h1 := congrArg String.data h
  simp only [mkSummary, noAttemptsResult, data_append] at h1
  simp [List.cons_append, List.append_assoc] at h1

/-- C1: for every question-set pair and every answer map, the local
scorer's result satisfies `total = technical + communication`, with
`technical` bounded by the number of domain questions and
`communication` bounded by the number of communication questions. -/
theorem C1_total_and_bounds (role : String) (dq cq : List Question)
    (a : AnswerMap) :
    (evaluate_answers role dq cq a).scores.total
      = (evaluate_answers role dq cq a).scores.technical
        + (evaluate_answers role dq cq a).scores.communication
    ∧ (evaluate_answers role dq cq a).scores.technical ≤ dq.length
    ∧ (evaluate_answers role dq cq a).scores.communication ≤ cq.length := by
  have htech : (scoreLoop dq.length a 0 (dq ++ cq)).tech_correct ≤ dq.length := by
    rw [scoreLoop_append dq.length a dq cq 0]
    have h1 := scoreLoop_tech_le dq.length a dq 0
    have h2 := scoreLoop_tech_zero dq.length a cq (0 + dq.length) (by omega)
    dsimp only
    omega
  have hcomm : (scoreLoop dq.length a 0 (dq ++ cq)).comm_correct ≤ cq.length := by
    rw [scoreLoop_append dq.length a dq cq 0]
    have h1 := scoreLoop_comm_zero dq.length a dq 0 (by omega)
    have h2 := scoreLoop_comm_le dq.length a cq (0 + dq.length)
    dsimp only
    omega
  simp only [evaluate_answers]
  split_ifs with h1 h2 h3
  · exact ⟨rfl, Nat.zero_le _, Nat.zero_le _⟩
  · exact ⟨rfl, htech, hcomm⟩
  · exact ⟨rfl, htech, hcomm⟩
  · exact ⟨rfl, htech, hcomm⟩

/-- C2: when no question position has an answer present, the scorer
returns the zero scores and the dedicated no-attempts texts, whatever the
question sets contain. -/
theorem C2_no_attempts (role : String) (dq cq : List Question) (a : AnswerMap)
    (h : ∀ j, j < (dq ++ cq).length → a (qKey j) = none) :
    evaluate_answers role dq cq a = noAttemptsResult := by
  have hz := scoreLoop_attempted_zero dq.length a (dq ++ cq) 0
    (fun j _ h2 => h j (by omega))
  simp only [evaluate_answers]
  rw [if_pos ⟨hz.1, hz.2⟩]

/-- C2 witness: a concrete 1+1 question set with an all-absent answer map
evaluates to `noAttemptsResult`. -/
theorem C2_no_attempts_witness :
    evaluate_answers "Doctor" [sampleQuestion] [sampleQuestion]
      (fun _ => none) = noAttemptsResult :=
  C2_no_attempts "Doctor" [sampleQuestion] [sampleQuestion] (fun _ => none)
    (fun _ _ => rfl)

/-- C5: for question sets whose stored correct indices are integers in
`[0,4)`, the unanswered-versus-correct comparison never matches (first
conjunct), and hence each correct counter is bounded by the corresponding
attempted counter: an unanswered question never increments a correct
counter. -/
theorem C5_unanswered_never_correct (dq cq : List Question) (a : AnswerMap)
    (h : ∀ qu ∈ dq ++ cq, ∃ k : Int, qu.answer = some k ∧ 0 ≤ k ∧ k < 4) :
    (∀ j (hj : j < (dq ++ cq).length), a (qKey j) = none →
      ¬ a (qKey j) = ((dq ++ cq).get ⟨j, hj⟩).answer)
    ∧ (scoreLoop dq.length a 0 (dq ++ cq)).tech_correct
        ≤ (scoreLoop dq.length a 0 (dq ++ cq)).tech_attempted
    ∧ (scoreLoop dq.length a 0 (dq ++ cq)).comm_correct
        ≤ (scoreLoop dq.length a 0 (dq ++ cq)).comm_attempted := by
  have hm := scoreLoop_correct_le_attempted dq.length a (dq ++ cq) 0
    (fun qu hq => by obtain ⟨k, hk, -, -⟩ := h qu hq; simp [hk])
  refine ⟨?_, hm.1, hm.2⟩
  intro j hj hnone heq
  obtain ⟨k, hk, -, -⟩ := h ((dq ++ cq).get ⟨j, hj⟩) (List.get_mem _ _ _)
  rw [hnone, hk] at heq
  exact Option.noConfusion heq

/-- C5 witness: a concrete 1+1 question set with stored answers in
`[0,4)` and an all-absent answer map. -/
theorem C5_unanswered_never_correct_witness :
    (∀ j (hj : j < ([sampleQuestion] ++ [sampleQuestion]).length),
      (fun _ => (none : Option Int)) (qKey j) = none →
      ¬ (fun _ => (none : Option Int)) (qKey j)
        = (([sampleQuestion] ++ [sampleQuestion]).get ⟨j, hj⟩).answer)
    ∧ (scoreLoop [sampleQuestion].length (fun _ => none) 0
        ([sampleQuestion] ++ [sampleQuestion])).tech_correct
        ≤ (scoreLoop [sampleQuestion].length (fun _ => none) 0
            ([sampleQuestion] ++ [sampleQuestion])).tech_attempted
    ∧ (scoreLoop [sampleQuestion].length (fun _ => none) 0
        ([sampleQuestion] ++ [sampleQuestion])).comm_correct
        ≤ (scoreLoop [sampleQuestion].length (fun _ => none) 0
            ([sampleQuestion] ++ [sampleQuestion])).comm_attempted :=
  C5_unanswered_never_correct [sampleQuestion] [sampleQuestion] (fun _ => none)
    (by
      intro qu hq
      simp [sampleQuestion] at hq
      subst hq
      exact ⟨1, rfl, by decide, by decide⟩)

/-- C3: on a 10-domain/10-communication question set whose every stored
correct index is matched by the selected index, the scorer returns
technical 10, communication 10, total 20, and the high-tier feedback
texts. -/
theorem C3_perfect_score (role : String) (dq cq : List Question) (a : AnswerMap)
    (hd : dq.length = 10) (hc : cq.length = 10)
    (h : ∀ j (hj : j < (dq ++ cq).length), ∃ k : Int,
      ((dq ++ cq).get ⟨j, hj⟩).answer = some k ∧ a (qKey j) = some k) :
    evaluate_answers role dq cq a =
      { scores := ⟨10, 10, 20⟩
        summary := mkSummary 20 10 10
        strengths := highStrengths
        improvements := highImprovements } := by
  have hlen : (dq ++ cq).length = 20 := by simp [hd, hc]
  obtain ⟨k0, hk0a, hk0b⟩ := h 0 (by omega)
  have hpos := scoreLoop_attempted_pos dq.length a (dq ++ cq) 0 0
    (le_refl 0) (by omega) (by simp [hk0b])
  have hneg : ¬ ((scoreLoop dq.length a 0 (dq ++ cq)).tech_attempted = 0 ∧
      (scoreLoop dq.length a 0 (dq ++ cq)).comm_attempted = 0) := by omega
  have htc : (scoreLoop dq.length a 0 (dq ++ cq)).tech_correct = 10 := by
    rw [scoreLoop_append dq.length a dq cq 0]
    have h1 := scoreLoop_tech_full dq.length a dq 0 (by omega) (by
      intro j hj
      have hj2 : j < (dq ++ cq).length := by simp; omega
      obtain ⟨k, hk1, hk2⟩ := h j hj2
      refine ⟨k, ?_, ?_⟩
      · rw [← hk1]
        congr 1
        simp [List.getElem_append_left hj]
      · simpa using hk2)
    have h2 := scoreLoop_tech_zero dq.length a cq (0 + dq.length) (by omega)
    dsimp only
    omega
  have hcc : (scoreLoop dq.length a 0 (dq ++ cq)).comm_correct = 10 := by
    rw [scoreLoop_append dq.length a dq cq 0]
    have h1 := scoreLoop_comm_full dq.length a cq (0 + dq.length) (by omega) (by
      intro j hj
      have hj2 : dq.length + j < (dq ++ cq).length := by simp; omega
      obtain ⟨k, hk1, hk2⟩ := h (dq.length + j) hj2
      refine ⟨k, ?_, ?_⟩
      · rw [← hk1]
        congr 1
        simp [List.getElem_append_right]
      · have : 0 + dq.length + j = dq.length + j := by omega
        rwa [this])
    have h2 := scoreLoop_comm_zero dq.length a dq 0 (by omega)
    dsimp only
    omega
  simp only [evaluate_answers]
  rw [if_neg hneg, htc, hcc]
  norm_num

/-- C3 witness: a concrete 10+10 question set where every selected index
equals the stored correct index. -/
theorem C3_perfect_score_witness :
    evaluate_answers "Doctor" (List.replicate 10 sampleQuestion)
      (List.replicate 10 sampleQuestion) (fun _ => some 1) =
      { scores := ⟨10, 10, 20⟩
        summary := mkSummary 20 10 10
        strengths := highStrengths
        improvements := highImprovements } :=
  C3_perfect_score "Doctor" (List.replicate 10 sampleQuestion)
    (List.replicate 10 sampleQuestion) (fun _ => some 1)
    (by simp) (by simp)
    (by
      intro j hj
      refine ⟨1, ?_, rfl⟩
      have hm := List.get_mem (List.replicate 10 sampleQuestion ++
        List.replicate 10 sampleQuestion) j hj
      simp only [List.mem_append, List.mem_replicate] at hm
      rcases hm with ⟨-, hm⟩ | ⟨-, hm⟩ <;> rw [hm] <;> rfl)

/-- C4: whenever at least one question was attempted, the feedback tier is
a total function of `total` with no gaps or overlaps — `total ≤ 5` gives
exactly the low texts, `6 ≤ total ≤ 14` exactly the medium texts,
`15 ≤ total` exactly the high texts, the three tiers are pairwise
distinct, and the no-attempts summary is never produced. -/
theorem C4_feedback_tiers (role : String) (dq cq : List Question)
    (a : AnswerMap)
    (h : ∃ j, j < (dq ++ cq).length ∧ (a (qKey j)).isSome) :
    ((evaluate_answers role dq cq a).scores.total ≤ 5 →
      (evaluate_answers role dq cq a).strengths = lowStrengths ∧
        (evaluate_answers role dq cq a).improvements = lowImprovements)
    ∧ (6 ≤ (evaluate_answers role dq cq a).scores.total ∧
        (evaluate_answers role dq cq a).scores.total ≤ 14 →
      (evaluate_answers role dq cq a).strengths = medStrengths ∧
        (evaluate_answers role dq cq a).improvements = medImprovements)
    ∧ (15 ≤ (evaluate_answers role dq cq a).scores.total →
      (evaluate_answers role dq cq a).strengths = highStrengths ∧
        (evaluate_answers role dq cq a).improvements = highImprovements)
    ∧ (evaluate_answers role dq cq a).summary ≠ noAttemptsResult.summary
    ∧ lowStrengths ≠ medStrengths ∧ lowStrengths ≠ highStrengths
    ∧ medStrengths ≠ highStrengths := by
  obtain ⟨j, hj, hs⟩ := h
  have hpos := scoreLoop_attempted_pos dq.length a (dq ++ cq) 0 j
    (Nat.zero_le j) (by omega) hs
  have hneg : ¬ ((scoreLoop dq.length a 0 (dq ++ cq)).tech_attempted = 0 ∧
      (scoreLoop dq.length a 0 (dq ++ cq)).comm_attempted = 0) := by omega
  simp only [evaluate_answers]
  rw [if_neg hneg]
  split_ifs with h1 h2 <;> dsimp only
  · exact ⟨fun _ => ⟨rfl, rfl⟩, fun ht => absurd ht (by omega),
      fun ht => absurd ht (by omega), mkSummary_ne_noAttempts _ _ _,
      by decide, by decide, by decide⟩
  · exact ⟨fun ht => absurd ht (by omega), fun _ => ⟨rfl, rfl⟩,
      fun ht => absurd ht (by omega), mkSummary_ne_noAttempts _ _ _,
      by decide, by decide, by decide⟩
  · exact ⟨fun ht => absurd ht (by omega), fun ht => absurd ht h2,
      fun _ => ⟨rfl, rfl⟩, mkSummary_ne_noAttempts _ _ _,
      by decide, by decide, by decide⟩

/-- C4 witness: a concrete attempted test (one question answered). -/
theorem C4_feedback_tiers_witness :
    ((evaluate_answers "Doctor" [sampleQuestion] [] (fun _ => some 1)).scores.total ≤ 5 →
      (evaluate_answers "Doctor" [sampleQuestion] [] (fun _ => some 1)).strengths = lowStrengths ∧
        (evaluate_answers "Doctor" [sampleQuestion] [] (fun _ => some 1)).improvements = lowImprovements)
    ∧ (6 ≤ (evaluate_answers "Doctor" [sampleQuestion] [] (fun _ => some 1)).scores.total ∧
        (evaluate_answers "Doctor" [sampleQuestion] [] (fun _ => some 1)).scores.total ≤ 14 →
      (evaluate_answers "Doctor" [sampleQuestion] [] (fun _ => some 1)).strengths = medStrengths ∧
        (evaluate_answers "Doctor" [sampleQuestion] [] (fun _ => some 1)).improvements = medImprovements)
    ∧ (15 ≤ (evaluate_answers "Doctor" [sampleQuestion] [] (fun _ => some 1)).scores.total →
      (evaluate_answers "Doctor" [sampleQuestion] [] (fun _ => some 1)).strengths = highStrengths ∧
        (evaluate_answers "Doctor" [sampleQuestion] [] (fun _ => some 1)).improvements = highImprovements)
    ∧ (evaluate_answers "Doctor" [sampleQuestion] [] (fun _ => some 1)).summary ≠ noAttemptsResult.summary
    ∧ lowStrengths ≠ medStrengths ∧ lowStrengths ≠ highStrengths
    ∧ medStrengths ≠ highStrengths :=
  C4_feedback_tiers "Doctor" [sampleQuestion] [] (fun _ => some 1)
    ⟨0, by simp, rfl⟩

/-- C10: the scorer's result does not depend on the `role` argument: any
two invocations differing only in the role string return identical
evaluation results. -/
theorem C10_role_independent (r1 r2 : String) (dq cq : List Question)
    (a : AnswerMap) :
    evaluate_answers r1 dq cq a = evaluate_answers r2 dq cq a := rfl

/-- C6: the role validator fails closed — it returns Python `False` when
the external call raises, when the brace-sliced reply fails to parse, and
when the parsed object has no `valid` field; its total `Json` return type
records that no exception escapes to the caller. -/
theorem C6_fail_closed (p p1 p2 : String → Except Unit Json) (t1 t2 : String)
    (fs : List (String × Json))
    (h1 : p1 (extractBraces (pyStrip t1)) = .error ())
    (h2 : p2 (extractBraces (pyStrip t2)) = .ok (.obj fs))
    (h3 : fs.lookup "valid" = none) :
    is_valid_role (.error ()) p = .bool false
    ∧ is_valid_role (.ok t1) p1 = .bool false
    ∧ is_valid_role (.ok t2) p2 = .bool false := by
  refine ⟨rfl, ?_, ?_⟩
  · simp [is_valid_role, h1]
  · simp [is_valid_role, h2, h3]

/-- C6 witness: concrete failing call, failing parse, and `valid`-less
object all map to `False`. -/
theorem C6_fail_closed_witness :
    is_valid_role (.error ()) (fun _ => .error ()) = .bool false
    ∧ is_valid_role (.ok "hello") (fun _ => .error ()) = .bool false
    ∧ is_valid_role (.ok "hello") (fun _ => .ok (.obj [])) = .bool false :=
  C6_fail_closed (fun _ => .error ()) (fun _ => .error ())
    (fun _ => .ok (.obj [])) "hello" "hello" [] rfl rfl rfl

/-- C7: the question generator parses the stripped reply directly; on
failure it re-parses the brace-sliced substring; and when that second
parse also fails, the failure propagates as the function's result instead
of being swallowed. -/
theorem C7_generator_parse_policy (role : String) (nd nc : Nat)
    (p1 p2 p3 : String → Except Unit Json) (r1 r2 r3 : String) (j1 j2 : Json)
    (h1 : p1 (pyStrip r1) = .ok j1)
    (h2 : p2 (pyStrip r2) = .error ())
    (h3 : p2 (extractBraces (pyStrip r2)) = .ok j2)
    (h4 : p3 (pyStrip r3) = .error ())
    (h5 : p3 (extractBraces (pyStrip r3)) = .error ()) :
    generate_mcqs role nd nc p1 r1 = .ok j1
    ∧ generate_mcqs role nd nc p2 r2 = .ok j2
    ∧ generate_mcqs role nd nc p3 r3 = .error () := by
  refine ⟨?_, ?_, ?_⟩
  · simp [generate_mcqs, h1]
  · simp [generate_mcqs, h2, h3]
  · simp [generate_mcqs, h4, h5]

/-- C7 witness: concrete replies exercising the three parse outcomes. -/
theorem C7_generator_parse_policy_witness :
    generate_mcqs "Doctor" 10 10 (fun _ => .ok Json.null) "null" = .ok Json.null
    ∧ generate_mcqs "Doctor" 10 10
        (fun s => if s = "\x7b\x7d" then .ok (Json.obj []) else .error ())
        "a\x7b\x7d" = .ok (Json.obj [])
    ∧ generate_mcqs "Doctor" 10 10 (fun _ => .error ()) "oops" = .error () :=
  C7_generator_parse_policy "Doctor" 10 10 (fun _ => .ok Json.null)
    (fun s => if s = "\x7b\x7d" then .ok (Json.obj []) else .error ())
    (fun _ => .error ()) "null" "a\x7b\x7d" "oops" Json.null (Json.obj [])
    rfl rfl rfl rfl rfl

/-- C9 counterexample: the generator performs no length validation — a
reply parsing to empty `domain` and `communication` arrays is returned
successfully even though 10 questions per section were requested, so the
returned array lengths are 0, not the requested counts. -/
theorem C9_no_length_check_counterexample :
    generate_mcqs "Data Scientist" 10 10 ceParse ceReply = .ok ceJson
    ∧ jsonArrayLen ceJson "domain" = some 0
    ∧ jsonArrayLen ceJson "communication" = some 0
    ∧ jsonArrayLen ceJson "domain" ≠ some 10
    ∧ jsonArrayLen ceJson "communication" ≠ some 10 :=
  ⟨rfl, rfl, rfl, by decide, by decide⟩

/-- C9 amended: on success the generator returns exactly the parsed JSON
of the reply (direct parse or brace-slice re-parse), with no validation of
the array lengths against the requested counts. -/
theorem C9_parse_passthrough (role : String) (nd nc : Nat)
    (p : String → Except Unit Json) (reply : String) (j : Json)
    (h : generate_mcqs role nd nc p reply = .ok j) :
    p (pyStrip reply) = .ok j ∨ p (extractBraces (pyStrip reply)) = .ok j := by
  simp only [generate_mcqs] at h
  cases hp : p (pyStrip reply) with
  | ok j2 =>
    rw [hp] at h
    simp only at h
    left
    exact h
  | error e =>
    rw [hp] at h
    simp only at h
    right
    exact h

/-- C9 amended witness: the empty-arrays reply is passed through. -/
theorem C9_parse_passthrough_witness :
    ceParse (pyStrip ceReply) = .ok ceJson
    ∨ ceParse (extractBraces (pyStrip ceReply)) = .ok ceJson :=
  C9_parse_passthrough "Data Scientist" 10 10 ceParse ceReply ceJson rfl

theorem freshTest_mono (s : SessionState) (seen : List Event) (e : Event)
    (h : freshTest s seen) : freshTest s (seen ++ [e]) :=
  fun hst => (h hst).imp (fun _ hq => ⟨hq.1, List.mem_append_left _ hq.2⟩)

theorem step_freshTest (s : SessionState) (seen : List Event) (e : Event)
    (h : freshTest s seen) : freshTest (step s e) (seen ++ [e]) := by
  cases e with
  | submitRole text callRes p =>
    simp only [step]
    split_ifs with h1 h2 h3
    · exact freshTest_mono s seen _ h
    · exact freshTest_mono s seen _ h
    · intro hst; simp [freshTest] at hst
    · exact freshTest_mono s seen _ h
  | generated qs =>
    simp only [step]
    split_ifs with h1
    · intro _; exact ⟨qs, rfl, List.mem_append_right _ (by simp)⟩
    · exact freshTest_mono s seen _ h
  | submitTest ans =>
    simp only [step]
    split_ifs with h1
    · intro hst; simp [freshTest] at hst
    · exact freshTest_mono s seen _ h
  | evaluated =>
    simp only [step]
    split_ifs with h1
    · cases hm : s.mcqs with
      | some qs => intro hst; simp [freshTest] at hst
      | none => exact freshTest_mono s seen _ h
    · exact freshTest_mono s seen _ h
  | reset =>
    simp only [step]
    split_ifs with h1
    · intro hst; simp [freshTest] at hst
    · exact freshTest_mono s seen _ h

theorem steps_freshTest (evs : List Event) :
    ∀ (s : SessionState) (seen : List Event),
      freshTest s seen → freshTest (steps s evs) (seen ++ evs) := by
  induction evs with
  | nil => intro s seen h; simpa [steps] using h
  | cons e rest ih =>
    intro s seen h
    have h2 := ih (step s e) (seen ++ [e]) (step_freshTest s seen e h)
    simpa [steps, List.append_assoc] using h2

/-- C8: resetting from the result page yields the home state with the
role, answer map, question set, and evaluation all cleared; from that
state a role submission reaches `generating` only when the validator's
reply is truthy; and along any subsequent event sequence, whenever the
flow is on the test page its question set was delivered by a `generated`
event of that sequence — never the pre-reset one. -/
theorem C8_reset_clears_session (s : SessionState) (h : s.state = .result) :
    (step s .reset).state = .home
    ∧ (step s .reset).role = ""
    ∧ (step s .reset).answers = []
    ∧ (step s .reset).mcqs = none
    ∧ (step s .reset).evaluation = none
    ∧ (∀ text callRes p,
        (step (step s .reset) (.submitRole text callRes p)).state = .generating →
        jsonTruthy (is_valid_role callRes p) = true)
    ∧ (∀ evs, (steps (step s .reset) evs).state = .test →
        ∃ qs, (steps (step s .reset) evs).mcqs = some qs ∧
          Event.generated qs ∈ evs) := by
  have hstep : step s .reset =
      { s with
        state := .home
        role := ""
        answers := []
        mcqs := none
        evaluation := none } := by
    simp only [step, if_pos h]
  refine ⟨by rw [hstep], by rw [hstep], by rw [hstep], by rw [hstep],
    by rw [hstep], ?_, ?_⟩
  · intro text callRes p hgen
    by_cases hb : jsonTruthy (is_valid_role callRes p) = true
    · exact hb
    · exfalso
      have hb2 : jsonTruthy (is_valid_role callRes p) = false := by
        cases hq : jsonTruthy (is_valid_role callRes p) <;> simp_all
      rw [hstep] at hgen
      simp only [step] at hgen
      by_cases h1 : pyStrip text = ""
      · simp [h1] at hgen
      · simp [h1, hb2] at hgen
  · intro evs hst
    have hfresh : freshTest (step s .reset) [] := by
      intro hst2
      rw [hstep] at hst2
      simp at hst2
    have h3 := steps_freshTest evs (step s .reset) [] hfresh
    simpa using h3 hst

/-- C8 witness: a concrete populated result-page session. -/
theorem C8_reset_clears_session_witness :
    (step sessionAtResult .reset).state = .home
    ∧ (step sessionAtResult .reset).role = ""
    ∧ (step sessionAtResult .reset).answers = []
    ∧ (step sessionAtResult .reset).mcqs = none
    ∧ (step sessionAtResult .reset).evaluation = none
    ∧ (∀ text callRes p,
        (step (step sessionAtResult .reset)
          (.submitRole text callRes p)).state = .generating →
        jsonTruthy (is_valid_role callRes p) = true)
    ∧ (∀ evs, (steps (step sessionAtResult .reset) evs).state = .test →
        ∃ qs, (steps (step sessionAtResult .reset) evs).mcqs = some qs ∧
          Event.generated qs ∈ evs) :=
  C8_reset_clears_session sessionAtResult rfl
